import Mathlib

/-!
Verification of the due-reminder scheduling and delivery subsystem of
`src/app.py` (a Flask + SQLAlchemy + APScheduler reminder application),
as a shallow embedding in Lean 4.

Times are modelled as integers (UTC instants).  The database is a list of
`Reminder` records; SQLAlchemy commits are modelled as immediate updates
of that list.  The outside world (the SendGrid HTTP call, exceptions
raised during a cycle) is modelled by explicit outcome oracles passed as
parameters to the embedded functions.
-/

namespace ReminderApp

/-- The `Reminder` model of `src/app.py` lines 41–51: columns `id`,
`email`, `subject` (default `"Reminder"`), `message`, `remind_at_utc`,
`sent` (default `False`) and `created_at_utc`. -/
@[ext] structure Reminder where
  id : Nat
  email : String
  subject : String
  message : String
  remind_at_utc : Int
  sent : Bool
  created_at_utc : Int
deriving DecidableEq, Repr

/-- ASCII whitespace characters matched by the Python regex class `\s`. -/
def isPySpace (c : Char) : Bool :=
  c = ' ' || c = '\t' || c = '\n' || c = '\r' || c = '\x0b' || c = '\x0c'

/-- A character admissible in the regex atom `[^@\s]` of `valid_email`. -/
def okAtomChar (c : Char) : Bool :=
  !(c = '@') && !(isPySpace c)

/-- `True` iff the list contains a `'.'` that is neither its first nor its
last element, i.e. the list matches `[^@\s]*\.[^@\s]+` after its first
character (used to decide the `[^@\s]+\.[^@\s]+` part of the regex). -/
def innerDotAux : List Char → Bool
  | [] => false
  | [_] => false
  | c :: rest => (c = '.') || innerDotAux rest

/-- A `'.'` occurs in the list at some position `i` with `1 ≤ i ≤ len-2`. -/
def hasInnerDot : List Char → Bool
  | [] => false
  | _ :: rest => innerDotAux rest

/-- `valid_email` of `src/app.py` lines 54–55:
`re.fullmatch(r"[^@\s]+@[^@\s]+\.[^@\s]+", email)`, decided on the
character list: the string decomposes as `A ++ "@" ++ D` where `A` is a
nonempty run of `[^@\s]` characters and `D` matches `[^@\s]+\.[^@\s]+`
(equivalently: all of `D` is `[^@\s]` and `D` has an inner dot). -/
def validEmailChars (s : List Char) : Bool :=
  match s.span (fun c => !(c = '@')) with
  | (localPart, rest) =>
    match rest with
    | '@' :: domain =>
        (!localPart.isEmpty) && localPart.all okAtomChar &&
        domain.all okAtomChar && hasInnerDot domain
    | _ => false

/-- `valid_email` on strings. -/
def valid_email (s : String) : Bool := validEmailChars s.data

/-- Sender configuration: the environment variables `SENDGRID_API_KEY` and
`EMAIL_FROM` of `src/app.py` lines 24–25 (`os.getenv` yields `None` when
unset, modelled as `none`). -/
structure SenderConfig where
  sendgrid_api_key : Option String
  email_from : Option String
  email_from_name : String
deriving DecidableEq, Repr

/-- Python falsiness of an optional string: `not x` is true when `x` is
`None` or the empty string. -/
def falsyStr : Option String → Bool
  | none => true
  | some s => s.isEmpty

/-- Outcome of the network world for one `requests.post` call to the
SendGrid API in `send_email`: either an HTTP response (status code and
body text) or a raised exception (caught by the `except` clause). -/
inductive SendOutcome where
  | httpResponse (status : Nat) (text : String)
  | exn (msg : String)
deriving DecidableEq, Repr

/-- `send_email` of `src/app.py` lines 57–92: returns `False` when the
SendGrid environment variables are unset (Python-falsy), otherwise posts
and returns `True` exactly when the response status is 200 or 202;
every exception from the request is caught and yields `False`. -/
def send_email (cfg : SenderConfig) (to_email subject body : String)
    (outcome : SendOutcome) : Bool :=
  if falsyStr cfg.sendgrid_api_key || falsyStr cfg.email_from then
    false
  else
    match outcome with
    | .httpResponse status _ => status = 200 || status = 202
    | .exn _ => false

/-- The due query of `src/app.py` lines 142–143:
`Reminder.query.filter_by(sent=False).filter(Reminder.remind_at_utc <= now_utc).all()`. -/
def dueQuery (store : List Reminder) (now_utc : Int) : List Reminder :=
  store.filter (fun r => (!r.sent) && decide (r.remind_at_utc ≤ now_utc))

/-- Outcome of processing one due reminder inside the `for` loop of
`send_due_reminders`: either `send_email` returned a boolean, or an
unexpected exception escaped (e.g. from `db.session.commit()`). -/
inductive ProcOutcome where
  | ok (sendSucceeded : Bool)
  | raised (msg : String)
deriving DecidableEq, Repr

/-- `markSent`: the effect of `r.sent = True; db.session.commit()` on the
store, applied to the record with the given primary key. -/
def markSent (store : List Reminder) (i : Nat) : List Reminder :=
  store.map (fun r => if r.id = i then { r with sent := true } else r)

/-- Result of the `for` loop body of `send_due_reminders`: either the loop
ran to completion, or an exception escaped mid-loop (carrying the store
as committed at that point) to the cycle-level `except` clause. -/
inductive CycleResult where
  | completed (store : List Reminder)
  | crashed (store : List Reminder) (msg : String)
deriving DecidableEq, Repr

/-- The store a `CycleResult` leaves behind. -/
def cycleStore : CycleResult → List Reminder
  | .completed s => s
  | .crashed s _ => s

/-- The `for r in due` loop of `src/app.py` lines 145–151: for each due
reminder in order, if `send_email` succeeds the record is marked sent and
committed; on failure nothing changes; an unexpected exception aborts the
remainder of the loop (the `try` block encloses the whole loop). -/
def dispatchLoop (proc : Reminder → ProcOutcome) :
    List Reminder → List Reminder → CycleResult
  | [], store => .completed store
  | r :: rest, store =>
    match proc r with
    | .raised msg => .crashed store msg
    | .ok true => dispatchLoop proc rest (markSent store r.id)
    | .ok false => dispatchLoop proc rest store

/-- `send_due_reminders` of `src/app.py` lines 138–153: take `now` once,
query the due pending reminders, run the dispatch loop, and catch any
exception at the cycle boundary (the `except` clause only logs, so the
function always returns the store as committed so far). -/
def send_due_reminders (proc : Reminder → ProcOutcome) (now_utc : Int)
    (store : List Reminder) : List Reminder :=
  cycleStore (dispatchLoop proc (dueQuery store now_utc) store)

/-- The background scheduler repeatedly invoking `send_due_reminders`
(`src/app.py` lines 155–163): cycle `k` runs with per-reminder outcome
oracle `procs k` at instant `nows k`. -/
def schedulerRun (procs : Nat → Reminder → ProcOutcome) (nows : Nat → Int)
    (store : List Reminder) : Nat → List Reminder
  | 0 => store
  | k + 1 => send_due_reminders (procs k) (nows k) (schedulerRun procs nows store k)

/-- The POST form of the index route (`request.form.get` yields `None`
for a missing field, the raw value otherwise). -/
structure FormData where
  email : Option String
  subject : Option String
  message : Option String
  remind_at : Option String
deriving DecidableEq, Repr

/-- Result of a POST to `/`: either a redirect carrying a flash message
(rejection) or a new committed `Reminder` record. -/
inductive CreateResult where
  | rejected (flashMsg : String)
  | created (r : Reminder)
deriving DecidableEq, Repr

/-- Python truthiness of `request.form.get(...)`: `None` and `""` are
falsy. -/
def pyTruthy : Option String → Bool
  | none => false
  | some s => !s.isEmpty

/-- The POST branch of `index` in `src/app.py` lines 95–133.  The
`datetime.fromisoformat` parse plus `ZoneInfo(TZ)` localisation and
`astimezone(timezone.utc)` conversion are modelled by the environment
oracle `parseToUtc` (`none` = the `except` branch, `some t` = the
resulting UTC instant).  `subject = request.form.get("subject") or
"Reminder"` defaults both a missing and an empty subject.  Field checks,
`valid_email`, the strict future check `remind_at_utc <= now → reject`,
and the committed record's fields follow the source line by line
(`sent` gets its column default `False`, `created_at_utc` its default
`datetime.now(timezone.utc)`). -/
def index_post (parseToUtc : String → Option Int) (now_utc : Int)
    (nextId : Nat) (form : FormData) : CreateResult :=
  let subject : String :=
    match form.subject with
    | none => "Reminder"
    | some s => if s.isEmpty then "Reminder" else s
  if pyTruthy form.email && pyTruthy form.message && pyTruthy form.remind_at then
    match form.email, form.message, form.remind_at with
    | some email, some message, some remind_at_raw =>
      if valid_email email then
        match parseToUtc remind_at_raw with
        | none => .rejected "Invalid date or time"
        | some remind_at_utc =>
          if remind_at_utc ≤ now_utc then
            .rejected "Reminder time must be in the future"
          else
            .created
              { id := nextId
                email := email
                subject := subject
                message := message
                remind_at_utc := remind_at_utc
                sent := false
                created_at_utc := now_utc }
      else .rejected "Invalid email format"
    | _, _, _ => .rejected "All fields are required"
  else .rejected "All fields are required"

/-- Python `int(...)` on a nonnegative decimal string: nonempty and
digits-only, else a `ValueError`, modelled as `none`. -/
def pyIntDec (s : String) : Option Nat :=
  if (!s.data.isEmpty) && s.data.all (fun c => c.isDigit) then
    some (s.data.foldl (fun n c => n * 10 + (c.toNat - 48)) 0)
  else none

/-- `int(os.getenv("SCHEDULER_INTERVAL", "60"))` of `src/app.py` line 22,
on the decimal digits of the environment value. -/
def schedulerIntervalFromEnv (env : Option String) : Option Nat :=
  pyIntDec (env.getD "60")

/-- Configuration of one APScheduler interval job. -/
structure JobConfig where
  trigger_seconds : Nat
  max_instances : Nat
  coalesce : Bool
deriving DecidableEq, Repr

/-- The `scheduler.add_job` call of `src/app.py` lines 156–163: an
interval trigger with `seconds=SCHEDULER_INTERVAL`, `max_instances=3`,
`coalesce=True`. -/
def send_due_reminders_job (interval : Nat) : JobConfig :=
  { trigger_seconds := interval, max_instances := 3, coalesce := true }

/-- Modelled from the spec: APScheduler's bounded-instances tick
semantics for an interval job (the library itself is not part of the
repository).  A tick starts a new job instance only while fewer than
`max_instances` are running; ticks beyond the bound are coalesced or
skipped; a finish retires one instance. -/
inductive SchedEvent where
  | tick
  | finish
deriving DecidableEq, Repr

/-- One scheduler event applied to the count of running job instances. -/
def stepInstances (cfg : JobConfig) (running : Nat) : SchedEvent → Nat
  | .tick => if running < cfg.max_instances then running + 1 else running
  | .finish => running - 1

/-- Running-instance count after a sequence of scheduler events. -/
def runInstances (cfg : JobConfig) (evs : List SchedEvent) : Nat :=
  evs.foldl (stepInstances cfg) 0

/-- State of two concurrent executions of `send_due_reminders` (allowed
by `max_instances=3`): the committed store, each thread's position
(`none` before its query ran, `some l` with the unprocessed remainder of
its due snapshot afterwards), and the log of reminder ids handed to
`send_email`, in order. -/
structure ConcState where
  store : List Reminder
  thread1 : Option (List Reminder)
  thread2 : Option (List Reminder)
  sends : List Nat
deriving DecidableEq, Repr

/-- Interleaving actions of the two concurrent cycles: run a thread's
due query, or process its next snapshot element. -/
inductive ConcAct where
  | scan1
  | scan2
  | step1
  | step2
deriving DecidableEq, Repr

/-- Advance thread state `t`: process the next reminder of its snapshot —
call `send_email` on it (logged in `sends`), and on success set
`sent = True` and commit (`markSent`), exactly the loop body of
`src/app.py` lines 145–151.  There is no re-check of the committed
`sent` flag before sending and no compare-and-set at the write. -/
def procNext (sendOk : Nat → Bool) (st : ConcState)
    (t : Option (List Reminder)) : ConcState × Option (List Reminder) :=
  match t with
  | some (r :: rest) =>
    let logged := { st with sends := st.sends ++ [r.id] }
    if sendOk r.id then
      ({ logged with store := markSent logged.store r.id }, some rest)
    else (logged, some rest)
  | other => (st, other)

/-- One interleaving step of the two concurrent cycles. -/
def concStep (sendOk : Nat → Bool) (now_utc : Int) (st : ConcState) :
    ConcAct → ConcState
  | .scan1 =>
    match st.thread1 with
    | none => { st with thread1 := some (dueQuery st.store now_utc) }
    | some _ => st
  | .scan2 =>
    match st.thread2 with
    | none => { st with thread2 := some (dueQuery st.store now_utc) }
    | some _ => st
  | .step1 =>
    match procNext sendOk st st.thread1 with
    | (st1, t1) => { st1 with thread1 := t1 }
  | .step2 =>
    match procNext sendOk st st.thread2 with
    | (st2, t2) => { st2 with thread2 := t2 }

/-- Run a schedule of interleaving actions for the two concurrent cycles. -/
def concRun (sendOk : Nat → Bool) (now_utc : Int) (st : ConcState)
    (sched : List ConcAct) : ConcState :=
  sched.foldl (concStep sendOk now_utc) st

/-- The per-record effect of `markSent`: set the `sent` flag. -/
def setSent (r : Reminder) : Reminder := { r with sent := true }

/-- Every record in `store` with primary key `i` is already marked sent. -/
def allSentId (store : List Reminder) (i : Nat) : Prop :=
  ∀ r ∈ store, r.id = i → r.sent = true

/-- The domain portion of an address: everything after the first `@`. -/
def domainPortion (s : String) : List Char :=
  (s.data.dropWhile (fun c => !(c = '@'))).tail

/-- A pending reminder due at instant 5 (concrete evaluation input). -/
def wPend : Reminder :=
  { id := 1, email := "a@b.c", subject := "s", message := "m",
    remind_at_utc := 5, sent := false, created_at_utc := 0 }

/-- An already-sent reminder (concrete evaluation input). -/
def wSent : Reminder :=
  { id := 2, email := "a@b.c", subject := "s", message := "m",
    remind_at_utc := 5, sent := true, created_at_utc := 0 }

/-- Concrete pending reminder `A`, processed first in a cycle. -/
def rA : Reminder :=
  { id := 1, email := "a@b.c", subject := "s", message := "ma",
    remind_at_utc := 0, sent := false, created_at_utc := 0 }

/-- Concrete pending reminder `B`, processed after `A` in the same cycle. -/
def rB : Reminder :=
  { id := 2, email := "b@c.d", subject := "s", message := "mb",
    remind_at_utc := 0, sent := false, created_at_utc := 0 }

/-- A per-reminder outcome oracle under which processing `A` raises an
unexpected exception while `B`'s send would succeed. -/
def procCex : Reminder → ProcOutcome :=
  fun r => if r.id = 1 then .raised "boom" else .ok true

/-- A sender configuration with the API key unset (concrete input). -/
def cfgNoKey : SenderConfig :=
  { sendgrid_api_key := none, email_from := some "x@y.z",
    email_from_name := "SmartReminder" }

/-- Concrete pending due reminder for the concurrency model. -/
def rC : Reminder :=
  { id := 1, email := "u@v.w", subject := "s", message := "m",
    remind_at_utc := 0, sent := false, created_at_utc := 0 }

/-- Initial concurrent state: one pending due reminder, neither of the
two overlapping cycle instances has run its query yet. -/
def concInit : ConcState :=
  { store := [rC], thread1 := none, thread2 := none, sends := [] }

/-- The racy interleaving: both cycles query before either processes. -/
def raceSchedule : List ConcAct := [.scan1, .scan2, .step1, .step2]

/-- The state after both concurrent cycles have run their due queries. -/
def bothScanned : ConcState :=
  concStep (fun _ => true) 0 (concStep (fun _ => true) 0 concInit .scan1) .scan2

/-- Concrete environment oracle for the date parse (concrete input). -/
def wParse : String → Option Int := fun _ => some 100

/-- Concrete creation form with all fields present (concrete input). -/
def wForm : FormData :=
  { email := some "a@b.c", subject := some "s", message := some "hi",
    remind_at := some "t" }

/-- The record `index_post` commits for `wForm` (concrete input). -/
def wCreated : Reminder :=
  { id := 7, email := "a@b.c", subject := "s", message := "hi",
    remind_at_utc := 100, sent := false, created_at_utc := 0 }

lemma markSent_eq (store : List Reminder) (i : Nat) :
    markSent store i = store.map (fun r => if r.id = i then setSent r else r) := rfl

lemma setSent_id (r : Reminder) : (setSent r).id = r.id := rfl

lemma setSent_sent (r : Reminder) : (setSent r).sent = true := rfl

lemma setSent_setSent (r : Reminder) : setSent (setSent r) = setSent r := rfl

lemma setSent_of_sent (r : Reminder) (h : r.sent = true) : setSent r = r := by
  cases r
  simp only [setSent] at *
  simp_all

lemma dueQuery_mem (store : List Reminder) (now_utc : Int) (r : Reminder) :
    r ∈ dueQuery store now_utc ↔
      r ∈ store ∧ r.sent = false ∧ r.remind_at_utc ≤ now_utc := by
  simp [dueQuery, List.mem_filter, and_assoc]

/-- The store a dispatch loop leaves behind is the input store with the
`sent` flag of some records set; a record is only ever changed by setting
its flag, it was pending beforehand, and only because some due-list entry
with its primary key was processed with a successful send. -/
lemma dispatchLoop_shape (proc : Reminder → ProcOutcome) (due : List Reminder) :
    ∀ store : List Reminder, ∃ g : Reminder → Reminder,
      cycleStore (dispatchLoop proc due store) = store.map g ∧
      ∀ r : Reminder, g r = r ∨
        (g r = setSent r ∧ r.sent = false ∧
          ∃ d ∈ due, d.id = r.id ∧ proc d = .ok true) := by
  induction due with
  | nil =>
    intro store
    exact ⟨fun r => r, by simp [dispatchLoop, cycleStore], fun r => Or.inl rfl⟩
  | cons d rest ih =>
    intro store
    cases hp : proc d with
    | raised msg =>
      exact ⟨fun r => r, by simp [dispatchLoop, hp, cycleStore],
        fun r => Or.inl rfl⟩
    | ok b =>
      cases b with
      | false =>
        obtain ⟨g, hg, hcond⟩ := ih store
        refine ⟨g, by simpa [dispatchLoop, hp] using hg, ?_⟩
        intro r
        rcases hcond r with h | ⟨h1, h2, d', hd', h3, h4⟩
        · exact Or.inl h
        · exact Or.inr ⟨h1, h2, d', List.mem_cons_of_mem _ hd', h3, h4⟩
      | true =>
        obtain ⟨g, hg, hcond⟩ := ih (markSent store d.id)
        refine ⟨fun r => g (if r.id = d.id then setSent r else r), ?_, ?_⟩
        · have : dispatchLoop proc (d :: rest) store =
              dispatchLoop proc rest (markSent store d.id) := by
            simp [dispatchLoop, hp]
          rw [this, hg, markSent, List.map_map]
          rfl
        · intro r
          dsimp only
          by_cases hid : r.id = d.id
          · rw [if_pos hid]
            by_cases hs : r.sent = true
            · rw [setSent_of_sent r hs]
              rcases hcond r with h | ⟨_, h2, _⟩
              · exact Or.inl h
              · rw [hs] at h2; exact absurd h2 (by simp)
            · rcases hcond (setSent r) with h | ⟨_, h2, _⟩
              · refine Or.inr ⟨h, by simpa using hs, d, List.mem_cons_self d rest,
                  hid.symm, hp⟩
              · rw [setSent_sent] at h2; exact absurd h2 (by simp)
          · rw [if_neg hid]
            rcases hcond r with h | ⟨h1, h2, d', hd', h3, h4⟩
            · exact Or.inl h
            · exact Or.inr ⟨h1, h2, d', List.mem_cons_of_mem _ hd', h3, h4⟩

/-- `send_due_reminders` maps each record either to itself or to its
sent-marked copy, the latter only when the record was pending and some
due entry with its key was sent successfully. -/
lemma cycle_shape (proc : Reminder → ProcOutcome) (now_utc : Int)
    (store : List Reminder) : ∃ g : Reminder → Reminder,
      send_due_reminders proc now_utc store = store.map g ∧
      ∀ r : Reminder, g r = r ∨
        (g r = setSent r ∧ r.sent = false ∧
          ∃ d ∈ dueQuery store now_utc, d.id = r.id ∧ proc d = .ok true) :=
  dispatchLoop_shape proc (dueQuery store now_utc) store

/-- Every record of the post-cycle store comes from a pre-cycle record,
unchanged or sent-marked. -/
lemma cycle_mem (proc : Reminder → ProcOutcome) (now_utc : Int)
    (store : List Reminder) (r' : Reminder)
    (h : r' ∈ send_due_reminders proc now_utc store) :
    ∃ r ∈ store, r' = r ∨ r' = setSent r := by
  obtain ⟨g, hg, hcond⟩ := cycle_shape proc now_utc store
  rw [hg, List.mem_map] at h
  obtain ⟨r, hr, hgr⟩ := h
  rcases hcond r with hc | ⟨hc, -⟩
  · exact ⟨r, hr, Or.inl (by rw [← hgr, hc])⟩
  · exact ⟨r, hr, Or.inr (by rw [← hgr, hc])⟩

lemma allSentId_cycle (proc : Reminder → ProcOutcome) (now_utc : Int)
    (store : List Reminder) (i : Nat) (h : allSentId store i) :
    allSentId (send_due_reminders proc now_utc store) i := by
  intro r' hr' hid
  obtain ⟨r, hr, hcase⟩ := cycle_mem proc now_utc store r' hr'
  rcases hcase with hc | hc
  · rw [hc] at hid ⊢
    exact h r hr hid
  · rw [hc]
    exact setSent_sent r

lemma allSentId_run (procs : Nat → Reminder → ProcOutcome) (nows : Nat → Int)
    (store : List Reminder) (i : Nat) (h : allSentId store i) :
    ∀ k, allSentId (schedulerRun procs nows store k) i := by
  intro k
  induction k with
  | zero => exact h
  | succ k ih => exact allSentId_cycle _ _ _ _ ih

lemma dueQuery_singleton_pending (r : Reminder) (now_utc : Int)
    (h1 : r.sent = false) (h2 : r.remind_at_utc ≤ now_utc) :
    dueQuery [r] now_utc = [r] := by
  simp [dueQuery, h1, h2]

lemma cycle_single_fail (proc : Reminder → ProcOutcome) (r : Reminder)
    (now_utc : Int) (h1 : r.sent = false) (h2 : r.remind_at_utc ≤ now_utc)
    (hp : proc r = .ok false) : send_due_reminders proc now_utc [r] = [r] := by
  unfold send_due_reminders
  rw [dueQuery_singleton_pending r now_utc h1 h2]
  simp [dispatchLoop, hp, cycleStore]

lemma cycle_single_success (proc : Reminder → ProcOutcome) (r : Reminder)
    (now_utc : Int) (h1 : r.sent = false) (h2 : r.remind_at_utc ≤ now_utc)
    (hp : proc r = .ok true) :
    send_due_reminders proc now_utc [r] = [setSent r] := by
  unfold send_due_reminders
  rw [dueQuery_singleton_pending r now_utc h1 h2]
  simp [dispatchLoop, hp, cycleStore, markSent, setSent]

lemma cycle_single_raised (proc : Reminder → ProcOutcome) (r : Reminder)
    (now_utc : Int) (h1 : r.sent = false) (h2 : r.remind_at_utc ≤ now_utc)
    (msg : String) (hp : proc r = .raised msg) :
    send_due_reminders proc now_utc [r] = [r] := by
  unfold send_due_reminders
  rw [dueQuery_singleton_pending r now_utc h1 h2]
  simp [dispatchLoop, hp, cycleStore]

lemma cycle_single_sent (proc : Reminder → ProcOutcome) (r : Reminder)
    (now_utc : Int) :
    send_due_reminders proc now_utc [setSent r] = [setSent r] := by
  unfold send_due_reminders
  have : dueQuery [setSent r] now_utc = [] := by simp [dueQuery, setSent]
  rw [this]
  rfl

lemma dispatchLoop_ok_eq_foldl (sendFn : Reminder → Bool) :
    ∀ (due store : List Reminder),
      cycleStore (dispatchLoop (fun r => .ok (sendFn r)) due store) =
        due.foldl (fun s d => if sendFn d then markSent s d.id else s) store := by
  intro due
  induction due with
  | nil => intro store; rfl
  | cons d rest ih =>
    intro store
    cases hd : sendFn d <;> simp [dispatchLoop, hd, ih]

lemma foldl_markSent_map (sendFn : Reminder → Bool) :
    ∀ (due store : List Reminder),
      due.foldl (fun s d => if sendFn d then markSent s d.id else s) store =
        store.map
          (fun r => if due.any (fun d => decide (d.id = r.id) && sendFn d)
                    then setSent r else r) := by
  intro due
  induction due with
  | nil => intro store; simp
  | cons d rest ih =>
    intro store
    rw [List.foldl_cons]
    cases hd : sendFn d with
    | false =>
      rw [if_neg (by simp [hd]), ih store]
      apply List.map_congr_left
      intro r _
      simp [hd]
    | true =>
      rw [if_pos rfl, ih (markSent store d.id), markSent_eq, List.map_map]
      apply List.map_congr_left
      intro r _
      simp only [Function.comp_apply]
      by_cases hid : r.id = d.id
      · simp only [if_pos hid, setSent_id, setSent_setSent, ite_self]
        have hhead : ((d :: rest).any
            (fun d1 => decide (d1.id = r.id) && sendFn d1)) = true := by
          simp [List.any_cons, hid.symm, hd]
        rw [if_pos hhead]
      · simp only [if_neg hid]
        have hcond : ((d :: rest).any
              (fun d1 => decide (d1.id = r.id) && sendFn d1)) =
            (rest.any (fun d1 => decide (d1.id = r.id) && sendFn d1)) := by
          simp [List.any_cons, Ne.symm hid]
        rw [hcond]

lemma cycle_ok_eq_map (sendFn : Reminder → Bool) (now_utc : Int)
    (store : List Reminder) :
    send_due_reminders (fun r => .ok (sendFn r)) now_utc store =
      store.map
        (fun r => if (dueQuery store now_utc).any
                      (fun d => decide (d.id = r.id) && sendFn d)
                  then setSent r else r) := by
  unfold send_due_reminders
  rw [dispatchLoop_ok_eq_foldl, foldl_markSent_map]

lemma innerDotAux_mem : ∀ l : List Char, innerDotAux l = true → '.' ∈ l
  | [], h => by simp [innerDotAux] at h
  | [c], h => by simp [innerDotAux] at h
  | c :: c2 :: rest, h => by
    rw [show innerDotAux (c :: c2 :: rest) =
        ((decide (c = '.')) || innerDotAux (c2 :: rest)) from rfl] at h
    rcases Bool.or_eq_true_iff.mp h with hc | hrec
    · have hcd : c = '.' := of_decide_eq_true hc
      rw [hcd]
      exact List.mem_cons_self _ _
    · exact List.mem_cons_of_mem c (innerDotAux_mem (c2 :: rest) hrec)

lemma hasInnerDot_mem : ∀ l : List Char, hasInnerDot l = true → '.' ∈ l
  | [], h => by simp [hasInnerDot] at h
  | c :: rest, h =>
    List.mem_cons_of_mem c (innerDotAux_mem rest
      (by rw [show hasInnerDot (c :: rest) = innerDotAux rest from rfl] at h; exact h))

/-- A string accepted by the `valid_email` regex is nonempty, has exactly
one `@`, and has a `.` somewhere in its domain portion. -/
lemma valid_email_spec (s : String) (h : valid_email s = true) :
    ¬ s = "" ∧ s.data.count '@' = 1 ∧ '.' ∈ domainPortion s := by
  unfold valid_email validEmailChars at h
  rw [List.span_eq_take_drop] at h
  split at h
  next localPart rest heq =>
    rw [Prod.mk.injEq] at heq
    obtain ⟨hTake, hDrop⟩ := heq
    rw [← hTake] at h
    split at h
    case h_2 => exact absurd h (by simp)
    case h_1 domain =>
      simp only [Bool.and_eq_true] at h
      obtain ⟨⟨⟨-, -⟩, hdom⟩, hdot⟩ := h
      have hsplit : s.data =
          s.data.takeWhile (fun c => !(c = '@')) ++
            s.data.dropWhile (fun c => !(c = '@')) :=
        (List.takeWhile_append_dropWhile (fun c => !(c = '@')) s.data).symm
      have hatTake : '@' ∉ s.data.takeWhile (fun c => !(c = '@')) := by
        intro hmem
        have := List.mem_takeWhile_imp hmem
        simp at this
      have hatDom : '@' ∉ domain := by
        intro hmem
        have hall := List.all_eq_true.mp hdom '@' hmem
        simp [okAtomChar] at hall
      refine ⟨?_, ?_, ?_⟩
      · intro hs
        rw [hs] at hDrop
        exact absurd hDrop (by simp)
      · rw [hsplit, hDrop, List.count_append]
        rw [List.count_eq_zero.mpr hatTake, List.count_cons_self,
          List.count_eq_zero.mpr hatDom]
      · unfold domainPortion
        rw [hDrop]
        exact hasInnerDot_mem domain hdot

/-- Inversion of the POST handler: a record is committed only through the
single success branch, so all the guards held and the record's fields are
exactly the form data with defaults. -/
lemma index_post_created (parse : String → Option Int) (now_utc : Int)
    (nextId : Nat) (form : FormData) (r : Reminder)
    (h : index_post parse now_utc nextId form = .created r) :
    ∃ email message remind_raw t,
      form.email = some email ∧ form.message = some message ∧
      form.remind_at = some remind_raw ∧
      valid_email email = true ∧ parse remind_raw = some t ∧ now_utc < t ∧
      r = { id := nextId, email := email,
            subject := match form.subject with
                       | none => "Reminder"
                       | some s => if s.isEmpty then "Reminder" else s,
            message := message, remind_at_utc := t, sent := false,
            created_at_utc := now_utc } := by
  obtain ⟨fe, fs, fm, fr⟩ := form
  cases fe with
  | none => simp [index_post, pyTruthy] at h
  | some email =>
  cases fm with
  | none => simp [index_post, pyTruthy] at h
  | some message =>
  cases fr with
  | none => simp [index_post, pyTruthy] at h
  | some remind_raw =>
  simp only [index_post] at h
  by_cases hcond :
      (pyTruthy (some email) && pyTruthy (some message) &&
        pyTruthy (some remind_raw)) = true
  · rw [if_pos hcond] at h
    by_cases hvalid : valid_email email = true
    · rw [if_pos hvalid] at h
      cases hparse : parse remind_raw with
      | none => rw [hparse] at h; exact absurd h (by simp)
      | some t =>
        rw [hparse] at h
        dsimp only at h
        by_cases hle : t ≤ now_utc
        · rw [if_pos hle] at h
          exact absurd h (by simp)
        · rw [if_neg hle] at h
          refine ⟨email, message, remind_raw, t, rfl, rfl, rfl, hvalid, hparse,
            lt_of_not_le (fun hl => hle hl), ?_⟩
          injection h with h
          exact h.symm
    · rw [if_neg hvalid] at h
      exact absurd h (by simp)
  · rw [if_neg hcond] at h
    exact absurd h (by simp)

lemma foldl_stepInstances_le (cfg : JobConfig) :
    ∀ (evs : List SchedEvent) (n : Nat), n ≤ cfg.max_instances →
      evs.foldl (stepInstances cfg) n ≤ cfg.max_instances := by
  intro evs
  induction evs with
  | nil => intro n h; exact h
  | cons e rest ih =>
    intro n h
    rw [List.foldl_cons]
    apply ih
    cases e with
    | tick =>
      by_cases hlt : n < cfg.max_instances
      · simpa [stepInstances, hlt] using Nat.succ_le_of_lt hlt
      · simpa [stepInstances, hlt] using h
    | finish => exact le_trans (Nat.sub_le n 1) h

/-- Claim C1: the due scan returns exactly the reminders with
`sent = false` and `due_at ≤ now` — reminders with `due_at > now` are
excluded — and once every record under a primary key is marked sent, no
scan of any later scheduler state, at any instant, selects that key
again. -/
theorem due_scan_exact (store : List Reminder) (now_utc : Int) :
    (∀ r : Reminder, r ∈ dueQuery store now_utc ↔
        r ∈ store ∧ r.sent = false ∧ r.remind_at_utc ≤ now_utc) ∧
    (∀ (procs : Nat → Reminder → ProcOutcome) (nows : Nat → Int) (i : Nat),
      allSentId store i →
      ∀ (k : Nat) (now2 : Int) (r' : Reminder),
        r' ∈ dueQuery (schedulerRun procs nows store k) now2 → ¬ r'.id = i) := by
  refine ⟨dueQuery_mem store now_utc, ?_⟩
  intro procs nows i hall k now2 r' hr' hid
  have h1 := allSentId_run procs nows store i hall k
  have h2 := (dueQuery_mem _ now2 r').mp hr'
  have h3 := h1 r' h2.1 hid
  rw [h2.2.1] at h3
  exact Bool.false_ne_true h3

/-- Concrete instantiation of `due_scan_exact`: a pending reminder due
at 5 is selected at 10, and after three all-success cycles over a store
whose only record (key 2) is already sent, a scan at 1000 never selects
key 2. -/
theorem due_scan_exact_witness :
    wPend ∈ dueQuery [wPend] 10 ∧
    ¬ wSent ∈ dueQuery
        (schedulerRun (fun _ _ => ProcOutcome.ok true) (fun _ => (7 : Int))
          [wSent] 3) 1000 :=
  ⟨((due_scan_exact [wPend] 10).1 wPend).mpr (by decide),
   fun hmem => (due_scan_exact [wSent] 0).2 (fun _ _ => ProcOutcome.ok true)
     (fun _ => (7 : Int)) 2
     (show ∀ r ∈ [wSent], r.id = 2 → r.sent = true by decide)
     3 1000 wSent hmem (by decide)⟩

/-- Claim C2: across one dispatch cycle each record is either unchanged
or exactly its sent-marked copy; an already-sent record is never
changed; any change is the pending-to-sent flip and happens only because
a due record with that key had a send reported successful; and when the
sender fails for the first `N` cycles and then succeeds, the single
stored reminder flips exactly once: it is unchanged through cycle `N`
and sent-marked ever after. -/
theorem sent_flips_once :
    (∀ (proc : Reminder → ProcOutcome) (now_utc : Int) (store : List Reminder)
       (j : Nat) (hj : j < store.length),
      ∃ hj' : j < (send_due_reminders proc now_utc store).length,
        ((store.get ⟨j, hj⟩).sent = true →
          (send_due_reminders proc now_utc store).get ⟨j, hj'⟩ = store.get ⟨j, hj⟩) ∧
        ((send_due_reminders proc now_utc store).get ⟨j, hj'⟩ = store.get ⟨j, hj⟩ ∨
          (send_due_reminders proc now_utc store).get ⟨j, hj'⟩ =
            setSent (store.get ⟨j, hj⟩)) ∧
        (¬ (send_due_reminders proc now_utc store).get ⟨j, hj'⟩ = store.get ⟨j, hj⟩ →
          (store.get ⟨j, hj⟩).sent = false ∧
          (send_due_reminders proc now_utc store).get ⟨j, hj'⟩ =
            setSent (store.get ⟨j, hj⟩) ∧
          ∃ d ∈ dueQuery store now_utc,
            d.id = (store.get ⟨j, hj⟩).id ∧ proc d = .ok true)) ∧
    (∀ (N : Nat) (r : Reminder) (nows : Nat → Int),
      r.sent = false → (∀ k, r.remind_at_utc ≤ nows k) →
      (∀ k ≤ N,
        schedulerRun (fun k _ => ProcOutcome.ok (decide (N ≤ k))) nows [r] k = [r]) ∧
      (∀ k, N < k →
        schedulerRun (fun k _ => ProcOutcome.ok (decide (N ≤ k))) nows [r] k =
          [setSent r])) := by
  constructor
  · intro proc now_utc store j hj
    obtain ⟨g, hg, hcond⟩ := cycle_shape proc now_utc store
    have hlen : (send_due_reminders proc now_utc store).length = store.length := by
      rw [hg, List.length_map]
    refine ⟨hlen ▸ hj, ?_, ?_, ?_⟩
    all_goals
      have hget : (send_due_reminders proc now_utc store).get ⟨j, hlen ▸ hj⟩ =
          g (store.get ⟨j, hj⟩) := by
        have := List.get_of_eq hg ⟨j, hlen ▸ hj⟩
        rw [this]
        exact List.get_map g
    · intro hsent
      rw [hget]
      rcases hcond (store.get ⟨j, hj⟩) with hc | ⟨-, hpend, -⟩
      · rw [hc]
      · rw [hsent] at hpend
        exact absurd hpend (by simp)
    · rw [hget]
      rcases hcond (store.get ⟨j, hj⟩) with hc | ⟨hc, -, -⟩
      · exact Or.inl (by rw [hc])
      · exact Or.inr (by rw [hc])
    · intro hne
      rw [hget] at hne ⊢
      rcases hcond (store.get ⟨j, hj⟩) with hc | ⟨hc, hpend, hex⟩
      · exact absurd hc hne
      · exact ⟨hpend, by rw [hc], hex⟩
  · intro N r nows h1 h2
    have hupto : ∀ k ≤ N,
        schedulerRun (fun k _ => ProcOutcome.ok (decide (N ≤ k))) nows [r] k = [r] := by
      intro k hk
      induction k with
      | zero => rfl
      | succ k ih =>
        have hkN : k < N := hk
        rw [schedulerRun, ih (Nat.le_of_succ_le hk)]
        exact cycle_single_fail _ r (nows k) h1 (h2 k)
          (by simp [decide_eq_false (Nat.not_le.mpr hkN)])
    refine ⟨hupto, ?_⟩
    intro k hk
    induction k with
    | zero => exact absurd hk (by simp)
    | succ k ih =>
      by_cases hkN : k = N
      · rw [schedulerRun, hkN, hupto N (le_refl N)]
        exact cycle_single_success _ r (nows N) h1 (h2 N)
          (by simp)
      · have hlt : N < k := Nat.lt_of_le_of_ne (Nat.le_of_lt_succ hk) (fun e => hkN e.symm)
        rw [schedulerRun, ih hlt]
        exact cycle_single_sent _ r (nows k)

/-- Concrete instantiation of `sent_flips_once`: with two failing cycles
then success, the single pending reminder is unchanged after cycle 2 and
sent-marked after cycle 3. -/
theorem sent_flips_once_witness :
    schedulerRun (fun k _ => ProcOutcome.ok (decide (2 ≤ k))) (fun _ => (10 : Int))
      [wPend] 2 = [wPend] ∧
    schedulerRun (fun k _ => ProcOutcome.ok (decide (2 ≤ k))) (fun _ => (10 : Int))
      [wPend] 3 = [setSent wPend] :=
  ⟨(sent_flips_once.2 2 wPend (fun _ => (10 : Int)) rfl
      (fun _ => show wPend.remind_at_utc ≤ 10 by decide)).1 2 (le_refl 2),
   (sent_flips_once.2 2 wPend (fun _ => (10 : Int)) rfl
      (fun _ => show wPend.remind_at_utc ≤ 10 by decide)).2 3 (by decide)⟩

/-- Claim C3: in a cycle whose per-reminder sends return booleans (as
`send_email` always does), a due pending record whose send succeeds is
sent-marked afterwards, and one whose send fails is left completely
unchanged and is selected again by any scan at an instant at or after
this cycle's. Primary keys are assumed distinct, as the database
enforces. -/
theorem dispatch_outcome
    (sendFn : Reminder → Bool) (now_utc : Int) (store : List Reminder)
    (hnodup : (store.map Reminder.id).Nodup)
    (j : Nat) (hj : j < store.length)
    (hpend : (store.get ⟨j, hj⟩).sent = false)
    (hdue : (store.get ⟨j, hj⟩).remind_at_utc ≤ now_utc) :
    ∃ hj' : j < (send_due_reminders (fun r => .ok (sendFn r)) now_utc store).length,
      (sendFn (store.get ⟨j, hj⟩) = true →
        (send_due_reminders (fun r => .ok (sendFn r)) now_utc store).get ⟨j, hj'⟩ =
          setSent (store.get ⟨j, hj⟩)) ∧
      (sendFn (store.get ⟨j, hj⟩) = false →
        (send_due_reminders (fun r => .ok (sendFn r)) now_utc store).get ⟨j, hj'⟩ =
          store.get ⟨j, hj⟩ ∧
        ∀ now2 : Int, now_utc ≤ now2 →
          store.get ⟨j, hj⟩ ∈
            dueQuery (send_due_reminders (fun r => .ok (sendFn r)) now_utc store) now2) := by
  have hmap := cycle_ok_eq_map sendFn now_utc store
  have hlen : (send_due_reminders (fun r => .ok (sendFn r)) now_utc store).length =
      store.length := by rw [hmap, List.length_map]
  set r := store.get ⟨j, hj⟩ with hr
  have hmem : r ∈ store := List.get_mem store j hj
  have hmemdue : r ∈ dueQuery store now_utc :=
    (dueQuery_mem store now_utc r).mpr ⟨hmem, hpend, hdue⟩
  have hget : (send_due_reminders (fun r => .ok (sendFn r)) now_utc store).get
      ⟨j, hlen ▸ hj⟩ =
      (if (dueQuery store now_utc).any (fun d => decide (d.id = r.id) && sendFn d)
       then setSent r else r) := by
    have := List.get_of_eq hmap ⟨j, hlen ▸ hj⟩
    rw [this]
    exact List.get_map _
  refine ⟨hlen ▸ hj, ?_, ?_⟩
  · intro hsend
    rw [hget]
    have hany : (dueQuery store now_utc).any
        (fun d => decide (d.id = r.id) && sendFn d) = true :=
      List.any_eq_true.mpr ⟨r, hmemdue, by simp [hsend]⟩
    rw [if_pos hany]
  · intro hsend
    have hany : ¬ (dueQuery store now_utc).any
        (fun d => decide (d.id = r.id) && sendFn d) = true := by
      intro hex
      obtain ⟨d, hd, hdp⟩ := List.any_eq_true.mp hex
      simp only [Bool.and_eq_true, decide_eq_true_eq] at hdp
      have hdstore : d ∈ store := ((dueQuery_mem store now_utc d).mp hd).1
      have : d = r := List.inj_on_of_nodup_map hnodup hdstore hmem hdp.1
      rw [this, hsend] at hdp
      exact Bool.false_ne_true hdp.2
    have hfix : (send_due_reminders (fun r => .ok (sendFn r)) now_utc store).get
        ⟨j, hlen ▸ hj⟩ = r := by rw [hget, if_neg hany]
    refine ⟨hfix, ?_⟩
    intro now2 hnow2
    refine (dueQuery_mem _ now2 r).mpr ⟨?_, hpend, le_trans hdue hnow2⟩
    rw [← hfix]
    exact List.get_mem _ _ _

/-- Concrete instantiation of `dispatch_outcome`: on a one-record store,
a successful send flips the record and a failed send leaves it selected
by the next scan. -/
theorem dispatch_outcome_witness :
    (send_due_reminders (fun r => .ok ((fun _ => true) r)) 10 [wPend]).get
      ⟨0, by decide⟩ = setSent wPend ∧
    wPend ∈ dueQuery
      (send_due_reminders (fun r => .ok ((fun _ => false) r)) 10 [wPend]) 11 := by
  constructor
  · obtain ⟨hj', hsucc, -⟩ :=
      dispatch_outcome (fun _ => true) 10 [wPend] (by decide) 0 (by decide)
        (by decide) (by decide)
    exact hsucc rfl
  · obtain ⟨hj', -, hfail⟩ :=
      dispatch_outcome (fun _ => false) 10 [wPend] (by decide) 0 (by decide)
        (by decide) (by decide)
    exact (hfail rfl).2 11 (by decide)

/-- Claim C4 counterexample: in the concrete cycle over `[rA, rB]`, both
records are due and pending, processing `A` raises while `B`'s send
would succeed, yet the cycle leaves the store — including `B` —
completely unchanged: `B` is not attempted in that cycle, contradicting
the claim that `B` is still attempted and marked sent. -/
theorem dispatch_isolation_cex :
    rA ∈ dueQuery [rA, rB] 0 ∧ rB ∈ dueQuery [rA, rB] 0 ∧
    procCex rA = .raised "boom" ∧ procCex rB = .ok true ∧
    send_due_reminders procCex 0 [rA, rB] = [rA, rB] ∧ rB.sent = false := by
  refine ⟨by decide, by decide, by decide, by decide, by decide, by decide⟩

/-- Claim C4 as amended: when processing the first due reminder raises an
unexpected exception, the cycle-level handler catches it and the cycle
ends with the store unchanged — the remaining due reminders of that
cycle are not attempted — and every one of them is still selected by any
scan at or after this cycle's instant (and so is retried next cycle). -/
theorem dispatch_isolation_amended
    (proc : Reminder → ProcOutcome) (now_utc : Int) (store : List Reminder)
    (d : Reminder) (rest : List Reminder) (msg : String)
    (hdue : dueQuery store now_utc = d :: rest)
    (hraise : proc d = .raised msg) :
    send_due_reminders proc now_utc store = store ∧
    ∀ r ∈ rest, ∀ now2 : Int, now_utc ≤ now2 →
      r ∈ dueQuery (send_due_reminders proc now_utc store) now2 := by
  have h1 : send_due_reminders proc now_utc store = store := by
    unfold send_due_reminders
    rw [hdue]
    simp [dispatchLoop, hraise, cycleStore]
  refine ⟨h1, ?_⟩
  intro r hr now2 hle
  rw [h1]
  have hmem : r ∈ dueQuery store now_utc := by
    rw [hdue]
    exact List.mem_cons_of_mem d hr
  obtain ⟨h2, h3, h4⟩ := (dueQuery_mem store now_utc r).mp hmem
  exact (dueQuery_mem store now2 r).mpr ⟨h2, h3, le_trans h4 hle⟩

/-- Concrete instantiation of `dispatch_isolation_amended` on `[rA, rB]`
with the oracle that raises on `A`: the cycle changes nothing and `B` is
still due at instant 5. -/
theorem dispatch_isolation_amended_witness :
    send_due_reminders procCex 0 [rA, rB] = [rA, rB] ∧
    rB ∈ dueQuery (send_due_reminders procCex 0 [rA, rB]) 5 := by
  obtain ⟨h1, h2⟩ :=
    dispatch_isolation_amended procCex 0 [rA, rB] rA [rB] "boom"
      (by decide) (by decide)
  exact ⟨h1, h2 rB (by decide) 5 (by decide)⟩

/-- Claim C5: an exception escaping the dispatch loop is absorbed at the
cycle boundary — the cycle function returns the store as committed at
the crash point instead of propagating — the scheduler's next cycle
always runs on the previous cycle's result whatever that cycle did, and
concretely a crash-everything cycle followed by an all-success cycle
still delivers the pending reminder. -/
theorem cycle_exception_contained :
    (∀ (proc : Reminder → ProcOutcome) (now_utc : Int) (store s : List Reminder)
       (msg : String),
      dispatchLoop proc (dueQuery store now_utc) store = .crashed s msg →
      send_due_reminders proc now_utc store = s) ∧
    (∀ (procs : Nat → Reminder → ProcOutcome) (nows : Nat → Int)
       (store : List Reminder) (k : Nat),
      schedulerRun procs nows store (k + 1) =
        send_due_reminders (procs k) (nows k) (schedulerRun procs nows store k)) ∧
    (∀ (r : Reminder) (nows : Nat → Int), r.sent = false →
      (∀ k, r.remind_at_utc ≤ nows k) →
      schedulerRun (fun k _ => if k = 0 then .raised "boom" else .ok true) nows
        [r] 2 = [setSent r]) := by
  refine ⟨?_, ?_, ?_⟩
  · intro proc now_utc store s msg hcrash
    unfold send_due_reminders
    rw [hcrash]
    rfl
  · intro procs nows store k
    rfl
  · intro r nows h1 h2
    have hc0 : schedulerRun
        (fun k _ => if k = 0 then ProcOutcome.raised "boom" else .ok true) nows
        [r] 1 = [r] := by
      show send_due_reminders _ (nows 0) [r] = [r]
      exact cycle_single_raised _ r (nows 0) h1 (h2 0) "boom" (by simp)
    show send_due_reminders _ (nows 1) (schedulerRun _ nows [r] 1) = [setSent r]
    rw [hc0]
    exact cycle_single_success _ r (nows 1) h1 (h2 1) (by simp)

/-- Concrete instantiation of `cycle_exception_contained`: the crashing
cycle over `[rA, rB]` returns the crash-point store, and the
crash-then-succeed two-cycle run delivers the pending reminder. -/
theorem cycle_exception_contained_witness :
    send_due_reminders procCex 0 [rA, rB] = [rA, rB] ∧
    schedulerRun (fun k _ => if k = 0 then .raised "boom" else .ok true)
      (fun _ => (10 : Int)) [wPend] 2 = [setSent wPend] :=
  ⟨cycle_exception_contained.1 procCex 0 [rA, rB] [rA, rB] "boom" (by decide),
   cycle_exception_contained.2.2 wPend (fun _ => (10 : Int)) rfl
     (fun _ => show wPend.remind_at_utc ≤ 10 by decide)⟩

/-- Claim C6: `send_email` always returns a boolean — missing or empty
credentials deterministically yield failure for every outcome of the
world, a raised network exception yields failure, a non-200/202 HTTP
response yields failure, and success happens only on a 200 or 202
response with credentials present. -/
theorem send_email_total (cfg : SenderConfig) (to_email subject body : String)
    (outcome : SendOutcome) :
    (send_email cfg to_email subject body outcome = true ∨
      send_email cfg to_email subject body outcome = false) ∧
    ((falsyStr cfg.sendgrid_api_key = true ∨ falsyStr cfg.email_from = true) →
      send_email cfg to_email subject body outcome = false) ∧
    (∀ msg, send_email cfg to_email subject body (.exn msg) = false) ∧
    (∀ status text, ¬ status = 200 → ¬ status = 202 →
      send_email cfg to_email subject body (.httpResponse status text) = false) ∧
    (send_email cfg to_email subject body outcome = true →
      ∃ status text, outcome = .httpResponse status text ∧
        (status = 200 ∨ status = 202)) := by
  refine ⟨?_, ?_, ?_, ?_, ?_⟩
  · cases h : send_email cfg to_email subject body outcome
    · exact Or.inr rfl
    · exact Or.inl rfl
  · intro h
    unfold send_email
    rcases h with h | h <;> simp [h]
  · intro msg
    unfold send_email
    by_cases h : (falsyStr cfg.sendgrid_api_key || falsyStr cfg.email_from) = true
    · rw [if_pos h]
    · rw [if_neg h]
  · intro status text h200 h202
    unfold send_email
    by_cases h : (falsyStr cfg.sendgrid_api_key || falsyStr cfg.email_from) = true
    · rw [if_pos h]
    · rw [if_neg h]
      simp [h200, h202]
  · intro hsucc
    unfold send_email at hsucc
    by_cases h : (falsyStr cfg.sendgrid_api_key || falsyStr cfg.email_from) = true
    · rw [if_pos h] at hsucc
      exact absurd hsucc (by simp)
    · rw [if_neg h] at hsucc
      cases outcome with
      | exn msg => exact absurd hsucc (by simp)
      | httpResponse status text =>
        refine ⟨status, text, rfl, ?_⟩
        simpa using hsucc

/-- Concrete instantiation of `send_email_total`: with the API key
unset, even a 200 response reports failure. -/
theorem send_email_total_witness :
    send_email cfgNoKey "a@b.c" "s" "m" (.httpResponse 200 "ok") = false :=
  (send_email_total cfgNoKey "a@b.c" "s" "m" (.httpResponse 200 "ok")).2.1
    (Or.inl (by decide))

/-- Claim C7 is violated by the code: in the interleaving model of two
concurrent cycles over one pending due reminder, both cycles run their
due query before either has committed (both observing the reminder as
pending), and both then send it — the send log shows key 1 handed to
`send_email` twice. The mark-sent update is a plain write, not a
compare-and-set, so nothing prevents this double send. -/
theorem concurrent_double_send :
    bothScanned.thread1 = some [rC] ∧
    bothScanned.thread2 = some [rC] ∧
    (concRun (fun _ => true) 0 concInit raceSchedule).sends = [1, 1] ∧
    (concRun (fun _ => true) 0 concInit raceSchedule).sends.count 1 = 2 ∧
    rC.sent = false := by
  refine ⟨by decide, by decide, by decide, by decide, by decide⟩

/-- Claim C8: the job is an interval trigger defaulting to 60 seconds
when the environment variable is unset, configured with
`max_instances = 3` and `coalesce = True`, and under the bounded-
instances tick semantics the number of simultaneously running cycles
never exceeds 3, for every event sequence. -/
theorem scheduler_bounded (interval : Nat) :
    schedulerIntervalFromEnv none = some 60 ∧
    (send_due_reminders_job interval).trigger_seconds = interval ∧
    (send_due_reminders_job interval).max_instances = 3 ∧
    (send_due_reminders_job interval).coalesce = true ∧
    ∀ evs : List SchedEvent,
      runInstances (send_due_reminders_job interval) evs ≤ 3 := by
  refine ⟨by decide, rfl, rfl, rfl, ?_⟩
  intro evs
  exact foldl_stepInstances_le (send_due_reminders_job interval) evs 0
    (Nat.zero_le 3)

/-- Claim C9: whenever the POST handler commits a record, the recipient
passed `valid_email` — hence is nonempty, has exactly one `@`, and has a
`.` in its domain portion — the due instant, as converted to UTC by the
time-zone oracle, is strictly in the future, and the record starts with
`sent = false`; malformed or past-dated input never reaches this branch. -/
theorem create_validated (parseToUtc : String → Option Int) (now_utc : Int)
    (nextId : Nat) (form : FormData) (r : Reminder)
    (h : index_post parseToUtc now_utc nextId form = .created r) :
    valid_email r.email = true ∧ ¬ r.email = "" ∧
    r.email.data.count '@' = 1 ∧ '.' ∈ domainPortion r.email ∧
    now_utc < r.remind_at_utc ∧ r.sent = false := by
  obtain ⟨email, message, remind_raw, t, -, -, -, hvalid, -, hfut, hrec⟩ :=
    index_post_created parseToUtc now_utc nextId form r h
  subst hrec
  obtain ⟨hne, hcount, hdot⟩ := valid_email_spec email hvalid
  exact ⟨hvalid, hne, hcount, hdot, hfut, rfl⟩

/-- Concrete instantiation of `create_validated` on a committed record. -/
theorem create_validated_witness :
    valid_email wCreated.email = true ∧ ¬ wCreated.email = "" ∧
    wCreated.email.data.count '@' = 1 ∧ '.' ∈ domainPortion wCreated.email ∧
    (0 : Int) < wCreated.remind_at_utc ∧ wCreated.sent = false :=
  create_validated wParse 0 7 wForm wCreated (by decide)

/-- Claim C10: a creation request with the subject missing, or the
subject present but empty, is not rejected — provided the three required
fields (recipient, body, due time) are present and valid, the record is
committed with the default subject `"Reminder"`. -/
theorem subject_default
    (parseToUtc : String → Option Int) (now_utc t : Int) (nextId : Nat)
    (email message remind_raw : String)
    (hne : ¬ email = "") (hnm : ¬ message = "") (hnr : ¬ remind_raw = "")
    (hvalid : valid_email email = true)
    (hparse : parseToUtc remind_raw = some t) (hfut : now_utc < t) :
    index_post parseToUtc now_utc nextId
        { email := some email, subject := none, message := some message,
          remind_at := some remind_raw } =
      .created { id := nextId, email := email, subject := "Reminder",
                 message := message, remind_at_utc := t, sent := false,
                 created_at_utc := now_utc } ∧
    index_post parseToUtc now_utc nextId
        { email := some email, subject := some "", message := some message,
          remind_at := some remind_raw } =
      .created { id := nextId, email := email, subject := "Reminder",
                 message := message, remind_at_utc := t, sent := false,
                 created_at_utc := now_utc } := by
  have hcond : (pyTruthy (some email) && pyTruthy (some message) &&
      pyTruthy (some remind_raw)) = true := by
    simp [pyTruthy, Bool.eq_false_iff, String.isEmpty_iff, hne, hnm, hnr]
  constructor
  · simp only [index_post]
    rw [if_pos hcond, if_pos hvalid, hparse]
    dsimp only
    rw [if_neg (not_le.mpr hfut)]
  · simp only [index_post]
    rw [if_pos hcond, if_pos hvalid, hparse]
    dsimp only
    rw [if_neg (not_le.mpr hfut)]
    simp [String.isEmpty_iff]

/-- Concrete instantiation of `subject_default`: both the missing and
the empty subject commit the default-subject record. -/
theorem subject_default_witness :
    index_post wParse 0 7
        { email := some "a@b.c", subject := none, message := some "hi",
          remind_at := some "t" } =
      .created { id := 7, email := "a@b.c", subject := "Reminder",
                 message := "hi", remind_at_utc := 100, sent := false,
                 created_at_utc := 0 } ∧
    index_post wParse 0 7
        { email := some "a@b.c", subject := some "", message := some "hi",
          remind_at := some "t" } =
      .created { id := 7, email := "a@b.c", subject := "Reminder",
                 message := "hi", remind_at_utc := 100, sent := false,
                 created_at_utc := 0 } :=
  subject_default wParse 0 100 7 "a@b.c" "hi" "t" (by decide) (by decide)
    (by decide) (by decide) rfl (by decide)

end ReminderApp
